import Mathlib

/-!
Verification development for the TEXT_TO_PPTX_APP repository.

The Python sources (parser.py, llm_router.py, slide_maker.py) are shallowly
embedded below as executable Lean definitions.  Python strings are modelled as
Lean `String` (sequences of unicode code points, so `len` agrees with
`String.length`); machine-level details (file IO, the network, the pptx XML
container) are modelled as explicit data.
-/

/-- Python ASCII whitespace, the characters matched by `str.strip()` and by
the regex class `\s` on the inputs of this code base (space, tab, newline,
carriage return, vertical tab, form feed).  Non-ASCII unicode whitespace is
not modelled; no input in this development contains any. -/
def pyWs (c : Char) : Bool :=
  c = ' ' || c = '\t' || c = '\n' || c = '\r' || c = '\x0b' || c = '\x0c'

/-- Drop trailing characters satisfying `pyWs` from a character list. -/
def dropEndWs (cs : List Char) : List Char :=
  (cs.reverse.dropWhile pyWs).reverse

/-- Character-list model of Python `str.strip()`: drop leading and trailing
whitespace. -/
def pyStripL (cs : List Char) : List Char :=
  dropEndWs (cs.dropWhile pyWs)

/-- Model of Python `str.strip()` on strings. -/
def pyStrip (s : String) : String :=
  String.mk (pyStripL s.data)

/-- Model of Python `str.strip(chars)`: drop leading and trailing characters
belonging to the given set. -/
def pyStripSet (bad : List Char) (s : String) : String :=
  String.mk (((s.data.dropWhile (fun c => bad.contains c)).reverse.dropWhile
      (fun c => bad.contains c)).reverse)

/-- Model of the Python slice `s[:n]`. -/
def pyTake (n : Nat) (s : String) : String :=
  String.mk (s.data.take n)

/-- Model of Python `str.lower()` (ASCII letters; every name occurring in this
code base is ASCII). -/
def pyLower (s : String) : String :=
  String.mk (s.data.map Char.toLower)

/-- Model of Python `str.capitalize()`: first character upper-cased, the rest
lower-cased. -/
def pyCapitalize (s : String) : String :=
  match s.data with
  | [] => ""
  | c :: rest => String.mk (c.toUpper :: rest.map Char.toLower)

/-- Model of Python `sep.join(xs)`. -/
def joinSep (sep : String) : List String → String
  | [] => ""
  | [x] => x
  | x :: xs => x ++ sep ++ joinSep sep xs

/-- Worker for `pySplitlines`: at each newline the accumulated line is
emitted; a final segment is emitted only when non-empty, matching Python
`str.splitlines()` (which yields no trailing empty line). -/
def slGo : List Char → List Char → List (List Char)
  | [], acc => if acc.isEmpty then [] else [acc.reverse]
  | c :: rest, acc =>
      if c = '\n' then acc.reverse :: slGo rest []
      else slGo rest (c :: acc)

/-- Model of Python `str.splitlines()` for `\n`-separated text (the only line
separator occurring in the inputs of this code base). -/
def pySplitlines (s : String) : List String :=
  (slGo s.data []).map String.mk

/-- Worker for `pySplitChar`, the model of Python `str.split(sep)` for a
single-character separator. -/
def splitCharGo (sep : Char) : List Char → List Char → List (List Char)
  | [], acc => [acc.reverse]
  | c :: rest, acc =>
      if c = sep then acc.reverse :: splitCharGo sep rest []
      else splitCharGo sep rest (c :: acc)

/-- Model of Python `str.split(sep)` for a one-character separator; never
returns the empty list (Python returns `[""]` on the empty string). -/
def pySplitChar (sep : Char) (s : String) : List String :=
  (splitCharGo sep s.data []).map String.mk

/-- Worker splitting a character list into whitespace-separated words,
dropping empty pieces; model of Python `str.split()` with no argument. -/
def wordsGo : List Char → List Char → List (List Char)
  | [], acc => if acc.isEmpty then [] else [acc.reverse]
  | c :: rest, acc =>
      if pyWs c then
        if acc.isEmpty then wordsGo rest [] else acc.reverse :: wordsGo rest []
      else wordsGo rest (c :: acc)

/-- Model of Python `str.split()` (split on whitespace runs, no empties). -/
def pyWords (s : String) : List String :=
  (wordsGo s.data []).map String.mk

/-- Greedy word filling used by the `textwrap.shorten` model: append words
joined by single spaces while the accumulated string stays within `budget`,
stopping at the first word that does not fit. -/
def fitWordsGo (budget : Nat) : List String → String → String
  | [], acc => acc
  | w :: ws, acc =>
      let cand := if acc = "" then w else acc ++ " " ++ w
      if cand.length ≤ budget then fitWordsGo budget ws cand else acc

/-- Model of `textwrap.shorten(b, width=240, placeholder='…')` as called in
parser.py: collapse whitespace; if the collapsed text fits in 240 characters
return it, otherwise keep the longest word-boundary prefix that fits in 239
characters and append the one-character ellipsis placeholder.  The sub-word
breaking of long words performed by textwrap (`break_long_words`,
`break_on_hyphens`) is abstracted; the model preserves the 240-character
length guarantee of the library call. -/
def pyShorten (s : String) : String :=
  let ws := pyWords s
  let collapsed := joinSep " " ws
  if collapsed.length ≤ 240 then collapsed
  else fitWordsGo 239 ws "" ++ "…"

/-! ## parser.py -/

/-- A section produced by `_split_markdown_sections`: a title and a content
block (Python dict with keys "title" and "content"). -/
structure Sect where
  title : String
  content : String
deriving Repr, DecidableEq

/-- An outline entry: Python dict with keys "title" and "bullets". -/
structure OutlineEntry where
  title : String
  bullets : List String
deriving Repr, DecidableEq

/-- Core of the heading regex `^(#{1,6})\s+(.*)` applied by parser.py to an
already stripped line: one to six leading hash characters followed by at
least one whitespace character; the returned title is group 2 (the rest of
the line after the greedy whitespace run) stripped, exactly as in
`m.group(2).strip()`. -/
def hmCore (cs : List Char) : Option String :=
  let k := (cs.takeWhile (fun c => c = '#')).length
  let rest := cs.drop k
  if 1 ≤ k ∧ k ≤ 6 ∧ (match rest.head? with | some d => pyWs d | none => false) = true then
    some (String.mk (pyStripL (rest.dropWhile pyWs)))
  else none

/-- Heading recognition of parser.py line 12:
`re.match(r'^(#{1,6})\s+(.*)', line.strip())`. -/
def headingOf (line : String) : Option String :=
  hmCore (pyStripL line.data)

/-- Python truthiness of `current["title"] or current["content"]` in
parser.py lines 14 and 19: the title is a non-empty string, or the content
line list is non-empty. -/
def truthyTC (t : Option String) (c : List String) : Bool :=
  (match t with | some s => !s.isEmpty | none => false) || !c.isEmpty

/-- Flushing a current section (parser.py lines 15 and 20):
`{"title": current["title"] or "Section", "content": "\n".join(current["content"]).strip()}`. -/
def flushSect (t : Option String) (c : List String) : Sect :=
  { title := match t with
      | none => "Section"
      | some s => if s.isEmpty then "Section" else s
    content := pyStrip (joinSep "\n" c) }

/-- The line loop of `_split_markdown_sections` (parser.py lines 11-20),
carrying the current title and accumulated content lines. -/
def smsGo : List String → Option String → List String → List Sect
  | [], t, c => if truthyTC t c then [flushSect t c] else []
  | line :: rest, t, c =>
      match headingOf line with
      | some ttl => (if truthyTC t c then [flushSect t c] else []) ++ smsGo rest (some ttl) []
      | none => smsGo rest t (c ++ [line])

/-- parser.py `_split_markdown_sections`: split markdown text into sections
at heading lines, then keep sections with a truthy title or content
(parser.py line 21). -/
def splitMarkdownSections (md : String) : List Sect :=
  (smsGo (pySplitlines md) none []).filter (fun s => !s.title.isEmpty || !s.content.isEmpty)

/-- Longest prefix of a character list whose last character is a newline;
used to model the greedy `\s*\n` tail of the regex `\n\s*\n`. -/
def lastNlPre (r : List Char) : Option (List Char) :=
  match r with
  | [] => none
  | c :: rest =>
      match lastNlPre rest with
      | some p => some (c :: p)
      | none => if c = '\n' then some [c] else none

/-- Fuel-indexed worker modelling `re.split(r'\n\s*\n', text)` (parser.py
line 27): a separator is a newline followed by a whitespace run that contains
a further newline (the regex backtracks so the match ends at the last such
newline); the fuel is always instantiated with the input length, which is
sufficient. -/
def blankSplitGo : Nat → List Char → List Char → List (List Char)
  | _, [], acc => [acc.reverse]
  | 0, cs, acc => [acc.reverse ++ cs]
  | fuel + 1, c :: rest, acc =>
      if c = '\n' then
        match lastNlPre (rest.takeWhile pyWs) with
        | some p => acc.reverse :: blankSplitGo fuel (rest.drop p.length) []
        | none => blankSplitGo fuel rest (c :: acc)
      else blankSplitGo fuel rest (c :: acc)

/-- Model of `re.split(r'\n\s*\n', text)`. -/
def blankSplit (s : String) : List String :=
  (blankSplitGo s.data.length s.data []).map String.mk

/-- Fuel-indexed worker modelling `re.split(r'[\n•\-]\s+', content)`
(parser.py line 50): a separator is one of newline, bullet glyph, or hyphen,
followed by at least one whitespace character, with the greedy `\s+`
consuming the whole whitespace run. -/
def bulletSplitGo : Nat → List Char → List Char → List (List Char)
  | _, [], acc => [acc.reverse]
  | 0, cs, acc => [acc.reverse ++ cs]
  | fuel + 1, c :: rest, acc =>
      if (c = '\n' || c = '•' || c = '-') &&
          (match rest with | d :: _ => pyWs d | [] => false) then
        acc.reverse :: bulletSplitGo fuel (rest.dropWhile pyWs) []
      else bulletSplitGo fuel rest (c :: acc)

/-- Model of `re.split(r'[\n•\-]\s+', content)`. -/
def bulletSplit (s : String) : List String :=
  (bulletSplitGo s.data.length s.data []).map String.mk

/-- Bucket flush of parser.py lines 38-40 and 43-45: title of the first
member, contents joined with blank-line separators. -/
def flushBucket (b : List Sect) : Sect :=
  { title := (b.headD { title := "", content := "" }).title
    content := joinSep "\n\n" (b.map (fun s => s.content)) }

/-- The merging loop of parser.py lines 33-45: append sections to a bucket,
flushing whenever the bucket reaches `bsize` members, and flush any non-empty
trailing bucket at the end. -/
def bucketGo : List Sect → List Sect → Nat → List Sect
  | [], bucket, _ => if bucket.isEmpty then [] else [flushBucket bucket]
  | s :: rest, bucket, bsize =>
      let b2 := bucket ++ [s]
      if b2.length ≥ bsize then flushBucket b2 :: bucketGo rest [] bsize
      else bucketGo rest b2 bsize

/-- Title derivation of the paragraph fallback (parser.py line 29):
`p.split('.')[0][:80]`. -/
def firstSentenceTitle (p : String) : String :=
  pyTake 80 ((pySplitChar '.' p).headD "")

/-- The paragraph fallback of parser.py lines 27-30: split the text on
blank-line boundaries, strip and keep the non-empty paragraphs, and turn
each into a section titled by its first-sentence prefix (default "Topic"
when that prefix is empty). -/
def fallbackSections (text : String) : List Sect :=
  ((blankSplit text).map pyStrip |>.filter (fun p => !p.isEmpty)).map
    (fun p =>
      let t := firstSentenceTitle p
      { title := if t.isEmpty then "Topic" else t, content := p })

/-- The slide-count capping of parser.py lines 32-46: when the sections
exceed `max_slides`, merge them in buckets of `max(1, count // max_slides)`
consecutive members and keep the first `max_slides` buckets. -/
def capSections (secs : List Sect) (max_slides : Nat) : List Sect :=
  if secs.length > max_slides then
    (bucketGo secs [] (max 1 (secs.length / max_slides))).take max_slides
  else secs

/-- Candidate bullets of a section in `heuristic_outline` (parser.py lines
50-51): split the content at bullet separators, strip each piece and drop
the empty ones. -/
def heuristicBullets (content : String) : List String :=
  ((bulletSplit content).map pyStrip).filter (fun b => !b.isEmpty)

/-- Bullet length bounding of parser.py line 52:
`b if len(b) <= 240 else textwrap.shorten(b, width=240, placeholder='…')`. -/
def shortenIfLong (b : String) : String :=
  if b.length ≤ 240 then b else pyShorten b

/-- parser.py `heuristic_outline`: markdown sections, else paragraph
fallback; slide-count capping by bucket merging; bullet derivation with the
8-entry and 240-character bounds; 90-character title truncation. -/
def heuristic_outline (text : String) (max_slides : Nat) : List OutlineEntry :=
  let sections0 := splitMarkdownSections text
  let sections1 := if sections0.isEmpty then fallbackSections text else sections0
  ((capSections sections1 max_slides).take max_slides).map (fun sec =>
    { title := pyTake 90 sec.title
      bullets := ((heuristicBullets sec.content).take 8).map shortenIfLong })

/-- Bullets of a section in the structural branch of `outline_from_text`
(parser.py lines 62-63): the non-blank content lines, each stripped of
spaces, hyphens and bullet glyphs at both ends, the empty results dropped,
at most 8 kept — with no length truncation. -/
def structuralBullets (content : String) : List String :=
  ((((pySplitlines content).filter (fun ln => !(pyStrip ln).isEmpty)).map
      (fun ln => pyStripSet [' ', '-', '•'] ln)).filter
    (fun b => b.length > 0)).take 8

/-- parser.py `outline_from_text`: prefer markdown sections; fall back to
`heuristic_outline` when no section was found.  The guidance argument is
unused, as in the source. -/
def outline_from_text (text : String) (guidance : Option String) (max_slides : Nat) :
    List OutlineEntry :=
  let secs := splitMarkdownSections text
  if !secs.isEmpty then
    (secs.take max_slides).map (fun s =>
      { title := pyTake 90 s.title, bullets := structuralBullets s.content })
  else heuristic_outline text max_slides

/-! ## llm_router.py -/

/-- JSON values, the result type of the `json.loads` model.  Numbers are
modelled as integers; the fraction and exponent forms of the JSON number
grammar do not occur in any input of this development. -/
inductive Json where
  | jnull : Json
  | jbool : Bool → Json
  | jnum : Int → Json
  | jstr : String → Json
  | jarr : List Json → Json
  | jobj : List (String × Json) → Json

/-- JSON insignificant whitespace. -/
def jsonWs (c : Char) : Bool :=
  c = ' ' || c = '\t' || c = '\n' || c = '\r'

/-- Match a literal keyword at the head of the input, returning the rest. -/
def dropLit : List Char → List Char → Option (List Char)
  | [], cs => some cs
  | _ :: _, [] => none
  | e :: es, c :: cs => if c = e then dropLit es cs else none

/-- Parse the body of a JSON string literal after the opening quote, up to
the closing quote, handling the simple escape sequences; `\u` escapes do not
occur in any input of this development and are rejected. -/
def strBody : List Char → Option (List Char × List Char)
  | [] => none
  | '"' :: rest => some ([], rest)
  | '\\' :: e :: rest =>
      let esc : Option Char :=
        if e = '"' then some '"'
        else if e = '\\' then some '\\'
        else if e = '/' then some '/'
        else if e = 'n' then some '\n'
        else if e = 't' then some '\t'
        else if e = 'r' then some '\r'
        else if e = 'b' then some '\x08'
        else if e = 'f' then some '\x0c'
        else none
      match esc with
      | some c => (strBody rest).map (fun p => (c :: p.1, p.2))
      | none => none
  | '\\' :: [] => none
  | c :: rest => (strBody rest).map (fun p => (c :: p.1, p.2))

/-- Parse an unsigned decimal integer. -/
def digitsGo : List Char → Nat → Bool → Option (Nat × List Char)
  | c :: rest, acc, _ =>
      if c.isDigit then digitsGo rest (acc * 10 + (c.toNat - '0'.toNat)) true
      else if c = '.' || c = 'e' || c = 'E' then none
      else some (acc, c :: rest)
  | [], acc, seen => if seen then some (acc, []) else none

mutual

/-- Fuel-indexed recursive-descent parser for a JSON value; together with
`jsonLoads` below this models Python `json.loads`. -/
def parseVal : Nat → List Char → Option (Json × List Char)
  | 0, _ => none
  | fuel + 1, cs =>
      match cs.dropWhile jsonWs with
      | [] => none
      | '"' :: rest => (strBody rest).map (fun p => (Json.jstr (String.mk p.1), p.2))
      | '[' :: rest =>
          (match rest.dropWhile jsonWs with
           | ']' :: r2 => some (Json.jarr [], r2)
           | _ => (parseArrItems fuel rest).map (fun p => (Json.jarr p.1, p.2)))
      | '{' :: rest =>
          (match rest.dropWhile jsonWs with
           | '}' :: r2 => some (Json.jobj [], r2)
           | _ => (parseObjItems fuel rest).map (fun p => (Json.jobj p.1, p.2)))
      | '-' :: rest =>
          (match digitsGo rest 0 false with
           | some (n, r2) =>
               if rest.headD ' ' |>.isDigit then some (Json.jnum (-(n : Int)), r2) else none
           | none => none)
      | c :: rest =>
          if c.isDigit then
            (digitsGo (c :: rest) 0 false).map (fun p => (Json.jnum (p.1 : Int), p.2))
          else
            match dropLit "true".data (c :: rest) with
            | some r2 => some (Json.jbool true, r2)
            | none =>
              match dropLit "false".data (c :: rest) with
              | some r2 => some (Json.jbool false, r2)
              | none =>
                match dropLit "null".data (c :: rest) with
                | some r2 => some (Json.jnull, r2)
                | none => none

/-- Items of a non-empty JSON array, after the opening bracket. -/
def parseArrItems : Nat → List Char → Option (List Json × List Char)
  | 0, _ => none
  | fuel + 1, cs =>
      match parseVal fuel cs with
      | none => none
      | some (v, r) =>
          match r.dropWhile jsonWs with
          | ',' :: r2 => (parseArrItems fuel r2).map (fun p => (v :: p.1, p.2))
          | ']' :: r2 => some ([v], r2)
          | _ => none

/-- Members of a non-empty JSON object, after the opening brace. -/
def parseObjItems : Nat → List Char → Option (List (String × Json) × List Char)
  | 0, _ => none
  | fuel + 1, cs =>
      match cs.dropWhile jsonWs with
      | '"' :: rest =>
          (match strBody rest with
           | none => none
           | some (key, r1) =>
               match r1.dropWhile jsonWs with
               | ':' :: r2 =>
                   (match parseVal fuel r2 with
                    | none => none
                    | some (v, r3) =>
                        match r3.dropWhile jsonWs with
                        | ',' :: r4 => (parseObjItems fuel r4).map
                            (fun p => ((String.mk key, v) :: p.1, p.2))
                        | '}' :: r4 => some ([(String.mk key, v)], r4)
                        | _ => none)
               | _ => none)
      | _ => none

end

/-- Model of Python `json.loads`: parse one JSON value and require that only
whitespace remains; `none` models a raised `json.JSONDecodeError`. -/
def jsonLoads (s : String) : Option Json :=
  match parseVal (s.length + 1) s.data with
  | some (v, rest) => if (rest.dropWhile jsonWs).isEmpty then some v else none
  | none => none

/-- Model of `re.search(r'(\[.*\])', s, flags=re.S)` in llm_router.py line
29: the greedy match runs from the first opening bracket of the string to the
last closing bracket after it; `none` when no such pair exists. -/
def bracketSub (s : String) : Option String :=
  match s.data.dropWhile (fun c => !(c = '[')) with
  | [] => none
  | c :: rest =>
      match rest.reverse.dropWhile (fun d => !(d = ']')) with
      | [] => none
      | tailRev => some (String.mk (c :: tailRev.reverse))

/-- llm_router.py `_safe_parse_json`: try a direct `json.loads`; on failure
search for the bracketed substring and parse that; `none` models the
re-raised parse error when both fail. -/
def safeParseJson (s : String) : Option Json :=
  match jsonLoads s with
  | some v => some v
  | none =>
      match bracketSub s with
      | some sub => jsonLoads sub
      | none => none

/-- llm_router.py `ProviderConfig` dataclass. -/
structure ProviderConfig where
  name : String
  apiKey : String
  model : Option String
deriving Repr, DecidableEq

/-- The three supported providers of `make_outline_with_llm`. -/
inductive Provider where
  | openai : Provider
  | anthropic : Provider
  | gemini : Provider
deriving Repr, DecidableEq

/-- Boolean list-containment of one character list inside another, modelling
the Python substring operator `in`. -/
def chStartsB : List Char → List Char → Bool
  | [], _ => true
  | _ :: _, [] => false
  | a :: as, b :: bs => a = b && chStartsB as bs

/-- Worker for `strIn`. -/
def chInfixB : List Char → List Char → Bool
  | n, [] => n.isEmpty
  | n, c :: rest => chStartsB n (c :: rest) || chInfixB n rest

/-- Model of the Python substring test `needle in hay`. -/
def strIn (needle hay : String) : Bool :=
  chInfixB needle.data hay.data

/-- Provider dispatch of llm_router.py lines 36-62: lower-case the configured
name and test it for the provider keywords in order; `none` models the
`ValueError("Unsupported provider name...")` raised when nothing matches. -/
def dispatchProvider (name : String) : Option Provider :=
  let n := pyLower name
  if strIn "openai" n then some Provider.openai
  else if strIn "anthropic" n then some Provider.anthropic
  else if strIn "gemini" n || strIn "google" n then some Provider.gemini
  else none

/-- llm_router.py `_prompt_outline`: the instruction string embedding the
guidance (with its default), the slide cap, and the first 15000 characters of
the input text. -/
def promptOutline (text : String) (guidance : Option String) (max_slides : Nat) : String :=
  let guide := match guidance with
    | some g => if g.isEmpty then "Create a concise professional slide deck." else g
    | none => "Create a concise professional slide deck."
  "You are a presentation planner. Read the input and propose a slide outline.\n\nGUIDANCE: "
    ++ guide ++ "\nMAX_SLIDES: " ++ toString max_slides
    ++ "\n\nReturn JSON with this shape:\n[\x7b\"title\": \"...\",\"bullets\":[\"...\",\"...\"]\x7d, ...]\n\nINPUT:\n"
    ++ pyTake 15000 text ++ "\n"

/-- Errors surfaced by the `make_outline_with_llm` model: the unsupported
provider `ValueError`, and the parse error re-raised by `_safe_parse_json`. -/
inductive LlmError where
  | providerErr : LlmError
  | parseErr : LlmError
deriving Repr, DecidableEq

/-- llm_router.py `make_outline_with_llm`.  The network round trip of each
provider branch is modelled by the `respond` argument, mapping the dispatched
provider and the prompt to the textual model response; the returned list
records, in order, the providers actually called, so that the absence of a
network call is an observable fact.  The successfully parsed JSON value is
returned as is: the source performs no shape validation on it. -/
def make_outline_with_llm (text : String) (guidance : Option String) (cfg : ProviderConfig)
    (max_slides : Nat) (respond : Provider → String → String) :
    Except LlmError Json × List Provider :=
  let prompt := promptOutline text guidance max_slides
  match dispatchProvider cfg.name with
  | none => (Except.error LlmError.providerErr, [])
  | some p =>
      match safeParseJson (respond p prompt) with
      | some v => (Except.ok v, [p])
      | none => (Except.error LlmError.parseErr, [p])

/-! ## slide_maker.py

The pptx objects manipulated through the python-pptx library are modelled as
explicit data: a layout is a named list of placeholders, a placeholder
carries its placeholder-format index, whether it has a text frame, and its
paragraph texts; a slide records the layout it was instantiated from, its
placeholders, the image payloads attached to it, and its optional speaker
notes.  Instantiating a slide from a layout clones the layout placeholders
with a fresh text frame holding one empty paragraph, which is the behaviour
of `Presentation.slides.add_slide`.  Saving the deck is the identity on this
model and the preview rendering is not modelled (no claim concerns it). -/

/-- Image payload extracted from the template archive: a byte list. -/
abbrev ImgBytes := List Nat

/-- A placeholder shape: placeholder-format index, text-frame capability,
and the texts of its paragraphs. -/
structure PPlaceholder where
  idx : Nat
  hasTextFrame : Bool
  paragraphs : List String
deriving Repr, DecidableEq

/-- A slide layout: its name and its placeholders. -/
structure PLayout where
  name : String
  placeholders : List PPlaceholder
deriving Repr, DecidableEq, Inhabited

/-- A slide of the deck under construction. -/
structure PSlide where
  layoutName : String
  placeholders : List PPlaceholder
  images : List ImgBytes
  notes : Option String
deriving Repr, DecidableEq, Inhabited

/-- The deck: the layouts inherited from the template and the slides. -/
structure PPresentation where
  layouts : List PLayout
  slides : List PSlide
deriving Repr, DecidableEq

/-- An entry of the template zip archive: its path and its raw bytes. -/
structure ZipEntry where
  name : String
  data : ImgBytes
deriving Repr, DecidableEq

/-- The uploaded template: its deck structure and its archive entries. -/
structure Template where
  prs : PPresentation
  entries : List ZipEntry
deriving Repr, DecidableEq

/-- slide_maker.py `_collect_template_images`: archive entries under
`ppt/media/` whose lower-cased name has extension png, jpg or jpeg, in
enumeration order.  The per-entry read errors swallowed by the source do not
arise in the byte-list model. -/
def collectTemplateImages (entries : List ZipEntry) : List ImgBytes :=
  (entries.filter (fun e =>
      chStartsB "ppt/media/".data e.name.data &&
        (let ext := (pySplitChar '.' (pyLower e.name)).getLastD ""
         ext = "png" || ext = "jpg" || ext = "jpeg"))).map (fun e => e.data)

/-- slide_maker.py `_apply_bullets` acting on the paragraph texts of a text
frame: clear every existing paragraph; if the bullet list is empty stop
there; otherwise the first bullet reuses the first (cleared) paragraph and
every further bullet is appended as a new paragraph at the end. -/
def applyBullets (paras : List String) (bullets : List String) : List String :=
  let cleared := paras.map (fun _ => "")
  match bullets with
  | [] => cleared
  | b :: rest => (b :: cleared.tail) ++ rest

/-- The body-placeholder predicate of slide_maker.py lines 102-108: a
placeholder with a text frame whose placeholder-format index is not 0. -/
def isBodyPh (ph : PPlaceholder) : Bool :=
  ph.hasTextFrame && !(ph.idx = 0)

/-- Locate the body placeholder: first placeholder, in shape order,
satisfying `isBodyPh` (the loop breaks at the first hit). -/
def findBody (s : PSlide) : Option PPlaceholder :=
  s.placeholders.find? isBodyPh

/-- Replace the paragraphs of the first body placeholder with the result of
`applyBullets`; placeholders before it are left untouched, as is the slide
when no body placeholder exists. -/
def setBodyBullets (phs : List PPlaceholder) (bullets : List String) : List PPlaceholder :=
  match phs with
  | [] => []
  | ph :: rest =>
      if isBodyPh ph then
        { ph with paragraphs := applyBullets ph.paragraphs bullets } :: rest
      else ph :: setBodyBullets rest bullets

/-- `_apply_bullets` lifted to a slide, targeting the located body
placeholder. -/
def applyBulletsSlide (s : PSlide) (bullets : List String) : PSlide :=
  { s with placeholders := setBodyBullets s.placeholders bullets }

/-- slide_maker.py `_title_content_layout`: the first layout whose lower-cased
name contains "title" and one of "content", "text", "body"; the first layout
of the deck otherwise. -/
def titleContentLayout (layouts : List PLayout) (l0 : PLayout) : PLayout :=
  (layouts.find? (fun l =>
      let n := pyLower l.name
      strIn "title" n && (strIn "content" n || strIn "text" n || strIn "body" n))).getD l0

/-- slide_maker.py `_title_only_layout`: the first layout whose lower-cased
name contains "title only"; the first layout of the deck otherwise. -/
def titleOnlyLayout (layouts : List PLayout) (l0 : PLayout) : PLayout :=
  (layouts.find? (fun l => strIn "title only" (pyLower l.name))).getD l0

/-- `prs.slides.add_slide(layout)`: a fresh slide cloned from the layout,
each text-frame placeholder starting with one empty paragraph. -/
def instantiateLayout (lay : PLayout) : PSlide :=
  { layoutName := lay.name
    placeholders := lay.placeholders.map (fun ph =>
      { ph with paragraphs := if ph.hasTextFrame then [""] else [] })
    images := []
    notes := none }

/-- `slide.shapes.title.text = t` guarded by `if slide.shapes.title:`
(slide_maker.py lines 94-98): when a title placeholder (placeholder-format
index 0) exists its content becomes the single paragraph `t`; otherwise the
slide is unchanged.  Placeholder indices are unique on a slide, so mapping
over all index-0 placeholders sets exactly the title placeholder. -/
def setSlideTitle (s : PSlide) (t : String) : PSlide :=
  if s.placeholders.any (fun ph => ph.idx = 0) then
    { s with placeholders := s.placeholders.map (fun ph =>
        if ph.idx = 0 then { ph with paragraphs := [t] } else ph) }
  else s

/-- Image attachment step of slide_maker.py lines 119-121: when the shuffled
image list is non-empty, `_add_image_if_layout_allows` places image number
`imgIdx % len` on the slide. -/
def attachImg (imgs : List ImgBytes) (imgIdx : Nat) (s : PSlide) : PSlide :=
  if imgs.isEmpty then s
  else { s with images := s.images ++ [imgs.getD (imgIdx % imgs.length) []] }

/-- Notes attachment step of slide_maker.py lines 123-128: when a provider
configuration was supplied, the generated notes text is attached to the
slide.  The `_gen_notes` round trip through `make_outline_with_llm` is
abstracted into the supplied function; no claim depends on the notes text. -/
def attachNotes (notesFn : Option (OutlineEntry → String)) (e : OutlineEntry)
    (s : PSlide) : PSlide :=
  match notesFn with
  | none => s
  | some f => { s with notes := some (f e) }

/-- slide_maker.py `_make_cover_slide`: a slide from the first layout, title
set to the given text when a title placeholder exists, and every placeholder
with placeholder-format index 1 receiving `subtitle or ""`. -/
def mkCoverSlide (l0 : PLayout) (title : String) (subtitle : Option String) : PSlide :=
  let s := setSlideTitle (instantiateLayout l0) title
  { s with placeholders := s.placeholders.map (fun ph =>
      if ph.idx = 1 && ph.hasTextFrame then
        { ph with paragraphs := [subtitle.getD ""] }
      else ph) }

/-- The cover title of slide_maker.py line 84:
`outline[0]["title"] if outline else "Presentation"`. -/
def firstTitleOf (outline : List OutlineEntry) : String :=
  match outline with
  | [] => "Presentation"
  | e :: _ => e.title

/-- The subtitle computation of slide_maker.py line 85:
`(guidance or "").strip().capitalize() if guidance else None`. -/
def subtitleOf (guidance : Option String) : Option String :=
  match guidance with
  | none => none
  | some g => if g.isEmpty then none else some (pyCapitalize (pyStrip g))

/-- The per-entry loop of `build_presentation` (slide_maker.py lines
92-128): instantiate a slide from the title+content layout and set its
title; if no body placeholder exists, add a further slide from the
title-only layout with the title set (the first slide stays in the deck);
otherwise inject the bullets; then attach the cycled image and the optional
notes to the slide currently held by the loop variable.  The image index is
incremented only when the image list is non-empty, as in the source. -/
def composeLoop (layTC layTO : PLayout) (imgs : List ImgBytes)
    (notesFn : Option (OutlineEntry → String)) :
    List OutlineEntry → Nat → List PSlide
  | [], _ => []
  | e :: rest, imgIdx =>
      let nextIdx := if imgs.isEmpty then imgIdx else imgIdx + 1
      let slide1 := setSlideTitle (instantiateLayout layTC) e.title
      match findBody slide1 with
      | none =>
          let slide2 := setSlideTitle (instantiateLayout layTO) e.title
          let slide2 := attachNotes notesFn e (attachImg imgs imgIdx slide2)
          slide1 :: slide2 :: composeLoop layTC layTO imgs notesFn rest nextIdx
      | some _ =>
          let slide1 := applyBulletsSlide slide1 e.bullets
          let slide1 := attachNotes notesFn e (attachImg imgs imgIdx slide1)
          slide1 :: composeLoop layTC layTO imgs notesFn rest nextIdx

/-- slide_maker.py `build_presentation` restricted to deck construction (the
returned byte buffer is the serialized deck, modelled by the deck itself;
preview rendering concerns no claim).  `shuffledImgs` stands for
`random.shuffle` applied to `_collect_template_images(template_bytes)`: the
theorems about this definition constrain it to be a permutation of
`collectTemplateImages tpl.entries`.  `none` models the exception raised
when the template has no layout (`prs.slide_layouts[0]`). -/
def build_presentation (tpl : Template) (outline : List OutlineEntry)
    (guidance : Option String) (shuffledImgs : List ImgBytes)
    (notesFn : Option (OutlineEntry → String)) : Option PPresentation :=
  match tpl.prs.layouts with
  | [] => none
  | l0 :: _ =>
      let cover := mkCoverSlide l0 (firstTitleOf outline) (subtitleOf guidance)
      let layTC := titleContentLayout tpl.prs.layouts l0
      let layTO := titleOnlyLayout tpl.prs.layouts l0
      some { tpl.prs with
        slides := tpl.prs.slides ++ cover ::
          composeLoop layTC layTO shuffledImgs notesFn outline 0 }

/-! ## Helper lemmas -/

theorem length_pyTake (n : Nat) (s : String) : (pyTake n s).length ≤ n := by
  unfold pyTake
  rw [String.length_mk]
  exact List.length_take_le n s.data

theorem fitWordsGo_length (b : Nat) (ws : List String) (acc : String)
    (h : acc.length ≤ b) : (fitWordsGo b ws acc).length ≤ b := by
  induction ws generalizing acc with
  | nil => simpa [fitWordsGo] using h
  | cons w ws ih =>
      simp only [fitWordsGo]
      split <;> split
      all_goals first | (apply ih; assumption) | exact h

theorem pyShorten_length (s : String) : (pyShorten s).length ≤ 240 := by
  rw [show pyShorten s =
      (if (joinSep " " (pyWords s)).length ≤ 240 then joinSep " " (pyWords s)
       else fitWordsGo 239 (pyWords s) "" ++ "…") from rfl]
  split
  · assumption
  · rw [String.length_append]
    have h1 : (fitWordsGo 239 (pyWords s) "").length ≤ 239 :=
      fitWordsGo_length 239 (pyWords s) "" (by simp)
    have h2 : ("…" : String).length = 1 := rfl
    omega

theorem shortenIfLong_length (b : String) : (shortenIfLong b).length ≤ 240 := by
  unfold shortenIfLong
  split
  · assumption
  · exact pyShorten_length b

theorem head?_dropWhile_not {α : Type} (p : α → Bool) (l : List α) (a : α)
    (h : (l.dropWhile p).head? = some a) : p a = false := by
  induction l with
  | nil => simp [List.dropWhile] at h
  | cons x xs ih =>
      rw [List.dropWhile_cons] at h
      by_cases hp : p x = true
      · rw [if_pos hp] at h
        exact ih h
      · rw [if_neg hp] at h
        simp only [List.head?_cons, Option.some.injEq] at h
        subst h
        simpa using hp

theorem dropWhile_dropWhile {α : Type} (p : α → Bool) (l : List α) :
    (l.dropWhile p).dropWhile p = l.dropWhile p := by
  cases h : l.dropWhile p with
  | nil => simp
  | cons a t =>
      have ha : p a = false := head?_dropWhile_not p l a (by simp [h])
      simp [List.dropWhile_cons, ha]

theorem dropEndWs_getLast_not_ws (cs : List Char) (a : Char)
    (h : (dropEndWs cs).getLast? = some a) : pyWs a = false := by
  unfold dropEndWs at h
  rw [List.getLast?_reverse] at h
  exact head?_dropWhile_not _ _ _ h

theorem dropEndWs_ne_nil (cs : List Char) (a : Char) (ha : a ∈ cs)
    (hw : pyWs a = false) : dropEndWs cs ≠ [] := by
  unfold dropEndWs
  simp only [ne_eq, List.reverse_eq_nil_iff, List.dropWhile_eq_nil_iff, not_forall]
  exact ⟨a, by simpa using ha, by simp [hw]⟩

theorem mem_of_getLast?_eq {α : Type} (l : List α) (a : α)
    (h : l.getLast? = some a) : a ∈ l := by
  induction l with
  | nil => simp at h
  | cons x xs ih =>
      cases xs with
      | nil => simp at h; simp [h]
      | cons y ys =>
          rw [List.getLast?_cons_cons] at h
          exact List.mem_cons_of_mem _ (ih h)

theorem getLast?_drop_of_ne_nil {α : Type} (l : List α) (k : Nat)
    (h : l.drop k ≠ []) : (l.drop k).getLast? = l.getLast? := by
  induction k generalizing l with
  | zero => simp
  | succ k ih =>
      cases l with
      | nil => simp at h
      | cons a t =>
          simp only [List.drop_succ_cons] at h ⊢
          rw [ih t h]
          cases t with
          | nil => simp [List.drop_nil] at h
          | cons b u => rw [List.getLast?_cons_cons]

theorem pyStripL_getLast_not_ws (cs : List Char) (a : Char)
    (h : (pyStripL cs).getLast? = some a) : pyWs a = false := by
  unfold pyStripL at h
  exact dropEndWs_getLast_not_ws _ _ h

theorem hmCore_stripped_ne_empty (cs : List Char) (t : String)
    (h : hmCore (pyStripL cs) = some t) : t ≠ "" := by
  simp only [hmCore] at h
  split at h
  case isFalse => exact absurd h (by simp)
  case isTrue hk =>
    simp only [Option.some.injEq] at h
    obtain ⟨hk1, hk2, hkd⟩ := hk
    set s := pyStripL cs with hs
    set k := (s.takeWhile (fun c => c = '#')).length with hkdef
    -- the head of the remainder exists and is whitespace
    cases hd : (s.drop k).head? with
    | none => rw [hd] at hkd; simp at hkd
    | some d =>
        rw [hd] at hkd
        subst h
        intro hemp
        have hdata : pyStripL ((s.drop k).dropWhile pyWs) = [] := by
          have := congrArg String.data hemp
          simpa using this
        cases hm : (s.drop k).dropWhile pyWs with
        | nil =>
            -- every character of the remainder is whitespace
            have hall : ∀ x ∈ s.drop k, pyWs x = true :=
              List.dropWhile_eq_nil_iff.mp hm
            have hne : s.drop k ≠ [] := by
              intro hnil
              rw [hnil] at hd
              simp at hd
            have hlast : (s.drop k).getLast? = s.getLast? :=
              getLast?_drop_of_ne_nil _ _ hne
            cases hg : (s.drop k).getLast? with
            | none =>
                rcases List.exists_cons_of_ne_nil hne with ⟨a, l, hal⟩
                rw [hal] at hg
                cases l with
                | nil => simp at hg
                | cons b u => rw [List.getLast?_cons_cons] at hg; simp [List.getLast?_eq_none_iff] at hg
            | some g =>
                have hgw : pyWs g = true := hall g (mem_of_getLast?_eq _ _ hg)
                have hsg : s.getLast? = some g := by rw [← hlast, hg]
                have hgf : pyWs g = false := pyStripL_getLast_not_ws cs g (hs ▸ hsg)
                simp [hgf] at hgw
        | cons p0 ptail =>
            have hp0 : pyWs p0 = false :=
              head?_dropWhile_not pyWs (s.drop k) p0 (by simp [hm])
            rw [hm] at hdata
            unfold pyStripL at hdata
            rw [List.dropWhile_cons, if_neg (by simp [hp0])] at hdata
            exact dropEndWs_ne_nil (p0 :: ptail) p0 (List.mem_cons_self _ _) hp0 hdata

theorem headingOf_ne_some_empty (line : String) (t : String)
    (h : headingOf line = some t) : t ≠ "" :=
  hmCore_stripped_ne_empty line.data t h

theorem flushSect_title_not_empty (t : Option String) (c : List String) :
    (flushSect t c).title.isEmpty = false := by
  unfold flushSect
  cases t with
  | none => rfl
  | some s =>
      simp only []
      split
      · rfl
      · rename_i hne
        simpa using hne

theorem smsGo_titles (lines : List String) (t : Option String) (c : List String) :
    ∀ s ∈ smsGo lines t c, s.title.isEmpty = false := by
  induction lines generalizing t c with
  | nil =>
      intro s hsm
      simp only [smsGo] at hsm
      split at hsm
      · rw [List.mem_singleton] at hsm
        subst hsm
        exact flushSect_title_not_empty t c
      · simp at hsm
  | cons line rest ih =>
      intro s hsm
      simp only [smsGo] at hsm
      cases hh : headingOf line with
      | some ttl =>
          rw [hh] at hsm
          rw [List.mem_append] at hsm
          rcases hsm with hsm | hsm
          · split at hsm
            · rw [List.mem_singleton] at hsm
              subst hsm
              exact flushSect_title_not_empty t c
            · simp at hsm
          · exact ih _ _ s hsm
      | none =>
          rw [hh] at hsm
          exact ih _ _ s hsm

theorem splitMarkdownSections_eq_smsGo (md : String) :
    splitMarkdownSections md = smsGo (pySplitlines md) none [] := by
  unfold splitMarkdownSections
  apply List.filter_eq_self.mpr
  intro s hs
  have := smsGo_titles _ _ _ s hs
  simp [this]

theorem truthyTC_some_ne (ttl : String) (httl : ttl ≠ "") (c : List String) :
    truthyTC (some ttl) c = true := by
  unfold truthyTC
  have : ttl.isEmpty = false := by
    rw [Bool.eq_false_iff]
    intro hemp
    exact httl ((String.isEmpty_iff ttl).mp hemp)
  simp [this]

theorem truthyTC_append (t : Option String) (c : List String) (line : String) :
    truthyTC t (c ++ [line]) = true := by
  unfold truthyTC
  simp

theorem smsGo_ne_nil (lines : List String) (t : Option String) (c : List String)
    (h : lines ≠ [] ∨ truthyTC t c = true) : smsGo lines t c ≠ [] := by
  induction lines generalizing t c with
  | nil =>
      rcases h with h | h
      · exact absurd rfl h
      · simp [smsGo, h]
  | cons line rest ih =>
      simp only [smsGo]
      cases hh : headingOf line with
      | some ttl =>
          have httl : ttl ≠ "" := headingOf_ne_some_empty _ _ hh
          intro hcontra
          rcases List.append_eq_nil.mp hcontra with ⟨_, h2⟩
          exact ih (some ttl) [] (Or.inr (truthyTC_some_ne ttl httl [])) h2
      | none =>
          exact ih t (c ++ [line]) (Or.inr (truthyTC_append t c line))

theorem slGo_ne_nil (cs : List Char) (acc : List Char)
    (h : cs ≠ [] ∨ acc ≠ []) : slGo cs acc ≠ [] := by
  induction cs generalizing acc with
  | nil =>
      rcases h with h | h
      · exact absurd rfl h
      · simp [slGo, h]
  | cons c rest ih =>
      simp only [slGo]
      split
      · simp
      · exact ih (c :: acc) (Or.inr (by simp))

theorem pySplitlines_ne_nil (s : String) (h : s ≠ "") : pySplitlines s ≠ [] := by
  unfold pySplitlines
  have hd : s.data ≠ [] := by
    intro hnil
    apply h
    cases s with
    | mk data => simp at hnil; simp [hnil]
  simpa using slGo_ne_nil s.data [] (Or.inl hd)

theorem splitMarkdownSections_ne_nil (md : String) (h : md ≠ "") :
    splitMarkdownSections md ≠ [] := by
  rw [splitMarkdownSections_eq_smsGo]
  exact smsGo_ne_nil _ _ _ (Or.inl (pySplitlines_ne_nil md h))

theorem bucketGo_ne_nil (secs : List Sect) (bucket : List Sect) (bsize : Nat)
    (h : secs ≠ [] ∨ bucket ≠ []) : bucketGo secs bucket bsize ≠ [] := by
  induction secs generalizing bucket with
  | nil =>
      rcases h with h | h
      · exact absurd rfl h
      · simp [bucketGo, h]
  | cons s rest ih =>
      simp only [bucketGo]
      split
      · simp
      · exact ih (bucket ++ [s]) (Or.inr (by simp))

theorem capSections_length (secs : List Sect) (k : Nat) (hs : secs ≠ []) (hk : 1 ≤ k) :
    1 ≤ (capSections secs k).length ∧ (capSections secs k).length ≤ k := by
  unfold capSections
  split
  · rename_i hgt
    have hne : bucketGo secs [] (max 1 (secs.length / k)) ≠ [] :=
      bucketGo_ne_nil secs [] _ (Or.inl hs)
    constructor
    · rw [List.length_take]
      have h1 : 1 ≤ (bucketGo secs [] (max 1 (secs.length / k))).length :=
        Nat.one_le_iff_ne_zero.mpr (by simpa [List.length_eq_zero] using hne)
      omega
    · rw [List.length_take]
      omega
  · rename_i hng
    have h1 : 1 ≤ secs.length := by
      have := List.length_pos.mpr hs
      omega
    omega

theorem heuristic_outline_length (text : String) (k : Nat)
    (h1 : splitMarkdownSections text ≠ []) (hk : 1 ≤ k) :
    1 ≤ (heuristic_outline text k).length ∧ (heuristic_outline text k).length ≤ k := by
  unfold heuristic_outline
  have hemp : (splitMarkdownSections text).isEmpty = false := by
    rw [Bool.eq_false_iff]
    intro he
    exact h1 (List.isEmpty_iff.mp he)
  simp only [hemp, Bool.false_eq_true, if_neg, ite_false, List.length_map, List.length_take]
  have := capSections_length (splitMarkdownSections text) k h1 hk
  omega

theorem heuristic_outline_empty (k : Nat) : heuristic_outline "" k = [] := by
  unfold heuristic_outline
  have h0 : splitMarkdownSections "" = [] := rfl
  have h1 : fallbackSections "" = [] := rfl
  rw [h0, h1]
  simp [capSections]

/-- C2: the outline extractor never fails: both entry points return an
outline of length between 1 and `max_slides` for non-empty input text and
`max_slides ≥ 1`, and the empty outline for empty input. -/
theorem C2_extractor_total (text : String) (g : Option String) (k : Nat) (hk : 1 ≤ k) :
    (text ≠ "" →
      1 ≤ (outline_from_text text g k).length ∧ (outline_from_text text g k).length ≤ k ∧
      1 ≤ (heuristic_outline text k).length ∧ (heuristic_outline text k).length ≤ k) ∧
    (text = "" → outline_from_text text g k = [] ∧ heuristic_outline text k = []) := by
  constructor
  · intro hne
    have hsec : splitMarkdownSections text ≠ [] := splitMarkdownSections_ne_nil text hne
    have hheur := heuristic_outline_length text k hsec hk
    have hemp : (splitMarkdownSections text).isEmpty = false := by
      rw [Bool.eq_false_iff]
      intro he
      exact hsec (List.isEmpty_iff.mp he)
    have hlen : 1 ≤ (splitMarkdownSections text).length := by
      have := List.length_pos.mpr hsec
      omega
    unfold outline_from_text
    simp only [hemp, Bool.not_false, if_pos, ite_true, List.length_map, List.length_take]
    refine ⟨by omega, by omega, hheur.1, hheur.2⟩
  · intro he
    subst he
    have h0 : splitMarkdownSections "" = [] := rfl
    constructor
    · unfold outline_from_text
      rw [h0]
      simpa using heuristic_outline_empty k
    · exact heuristic_outline_empty k

theorem C2_extractor_total_witness :
    1 ≤ (outline_from_text "hello world" none 3).length ∧
      (outline_from_text "hello world" none 3).length ≤ 3 ∧
      1 ≤ (heuristic_outline "hello world" 3).length ∧
      (heuristic_outline "hello world" 3).length ≤ 3 :=
  (C2_extractor_total "hello world" none 3 (by decide)).1 (by decide)

/-- Input refuting C1: a heading followed by a single 241-character line. -/
def c1LongLine : String := String.mk (List.replicate 241 'a')

def c1CexText : String := "# H\n" ++ c1LongLine

set_option maxRecDepth 4096 in
theorem c1_eval : outline_from_text c1CexText none 12 =
    [{ title := "H", bullets := [c1LongLine] }] := by rfl

/-- C1 counterexample: the structural entry point does not truncate bullets
to 240 characters, so the conjunction of bounds claimed for every returned
entry fails on a heading followed by one 241-character line. -/
theorem C1_counterexample :
    ¬ (∀ e ∈ outline_from_text c1CexText none 12,
        e.title.length ≤ 90 ∧ e.bullets.length ≤ 8 ∧ ∀ b ∈ e.bullets, b.length ≤ 240) := by
  intro hall
  have hmem : ({ title := "H", bullets := [c1LongLine] } : OutlineEntry) ∈
      outline_from_text c1CexText none 12 := by
    rw [c1_eval]
    exact List.mem_singleton_self _
  have hb := (hall _ hmem).2.2 c1LongLine (List.mem_singleton_self _)
  have hlen : c1LongLine.length = 241 := by
    unfold c1LongLine
    rw [String.length_mk, List.length_replicate]
  omega

/-- C1 amended: every entry of the heuristic entry point has title of at
most 90 characters, at most 8 bullets, each of at most 240 characters; the
structural-preference entry point guarantees the title and bullet-count
bounds but performs no bullet-length truncation. -/
theorem C1_amended_bounds (text : String) (g : Option String) (k : Nat) :
    (∀ e ∈ heuristic_outline text k,
      e.title.length ≤ 90 ∧ e.bullets.length ≤ 8 ∧ ∀ b ∈ e.bullets, b.length ≤ 240) ∧
    (∀ e ∈ outline_from_text text g k,
      e.title.length ≤ 90 ∧ e.bullets.length ≤ 8) := by
  have hheur : ∀ e ∈ heuristic_outline text k,
      e.title.length ≤ 90 ∧ e.bullets.length ≤ 8 ∧ ∀ b ∈ e.bullets, b.length ≤ 240 := by
    intro e he
    unfold heuristic_outline at he
    rw [List.mem_map] at he
    obtain ⟨sec, _, rfl⟩ := he
    refine ⟨length_pyTake 90 sec.title, ?_, ?_⟩
    · rw [List.length_map]
      exact List.length_take_le 8 _
    · intro b hb
      rw [List.mem_map] at hb
      obtain ⟨b0, _, rfl⟩ := hb
      exact shortenIfLong_length b0
  refine ⟨hheur, ?_⟩
  intro e he
  simp only [outline_from_text] at he
  split at he
  · rw [List.mem_map] at he
    obtain ⟨sec, _, rfl⟩ := he
    refine ⟨length_pyTake 90 sec.title, ?_⟩
    unfold structuralBullets
    exact List.length_take_le 8 _
  · exact ⟨(hheur e he).1, (hheur e he).2.1⟩

/-- Two paragraphs, no heading markers: the input of the C3 example. -/
def c3Text : String := "Alpha one. More alpha.\n\nBeta two. More beta."

/-- C3: on a two-paragraph heading-free input both entry points return a
single section titled "Section" holding the whole text, because the heading
splitter emits a default section for any non-empty input, leaving the
paragraph fallback of parser.py lines 26-30 unreachable; the claimed
two-entry outline with first-sentence titles is not produced. -/
theorem C3_code_behavior :
    heuristic_outline c3Text 12 =
      [{ title := "Section", bullets := ["Alpha one. More alpha.", "Beta two. More beta."] }] ∧
    outline_from_text c3Text none 12 =
      [{ title := "Section", bullets := ["Alpha one. More alpha.", "Beta two. More beta."] }] ∧
    splitMarkdownSections c3Text = [{ title := "Section", content := c3Text }] :=
  ⟨rfl, rfl, rfl⟩

/-- The unreachable paragraph fallback would indeed have produced the two
first-sentence titles: this evaluates the fallback in isolation, exhibiting
the divergence between the written fallback and the reachable behavior. -/
theorem c3_fallback_eval :
    (fallbackSections c3Text).map Sect.title = ["Alpha one", "Beta two"] := rfl

/-- Modelled from the spec sentence "merge sections into max_slides
contiguous buckets by grouping ceil(count/max_slides)-sized consecutive
runs ... Truncate to exactly max_slides buckets if over": the same bucket
merging as the source but with a ceiling bucket size, stated only for
comparison with `capSections`. -/
def specCeilCap (secs : List Sect) (max_slides : Nat) : List Sect :=
  if secs.length > max_slides then
    (bucketGo secs [] ((secs.length + max_slides - 1) / max_slides)).take max_slides
  else secs

/-- Six heading-delimited sections, the C4 counterexample input. -/
def c4SixText : String := "# T1\nc1\n# T2\nc2\n# T3\nc3\n# T4\nc4\n# T5\nc5\n# T6\nc6"

/-- C4 counterexample: with 6 sections and max_slides = 4 the source merges
in buckets of max(1, 6 // 4) = 1 section and truncates, keeping sections 1-4
and dropping 5-6, while the claimed ceil(6/4) = 2 grouping would produce the
three buckets led by sections 1, 3 and 5. -/
theorem C4_counterexample :
    capSections (splitMarkdownSections c4SixText) 4 ≠
      specCeilCap (splitMarkdownSections c4SixText) 4 ∧
    (heuristic_outline c4SixText 4).map OutlineEntry.title = ["T1", "T2", "T3", "T4"] ∧
    (specCeilCap (splitMarkdownSections c4SixText) 4).map Sect.title = ["T1", "T3", "T5"] := by
  refine ⟨?_, rfl, rfl⟩
  intro h
  have h1 : (capSections (splitMarkdownSections c4SixText) 4).map Sect.title =
      ["T1", "T2", "T3", "T4"] := rfl
  have h2 : (specCeilCap (splitMarkdownSections c4SixText) 4).map Sect.title =
      ["T1", "T3", "T5"] := rfl
  rw [h] at h1
  rw [h1] at h2
  simp at h2

/-- Twenty heading-delimited sections, the even-division example of C4. -/
def c4TwentyText : String :=
  "# T1\nc1\n# T2\nc2\n# T3\nc3\n# T4\nc4\n# T5\nc5\n# T6\nc6\n# T7\nc7\n# T8\nc8\n# T9\nc9\n# T10\nc10\n# T11\nc11\n# T12\nc12\n# T13\nc13\n# T14\nc14\n# T15\nc15\n# T16\nc16\n# T17\nc17\n# T18\nc18\n# T19\nc19\n# T20\nc20"

/-- C4 amended: the capping merges consecutive sections in buckets of
max(1, count // max_slides) members (floor division, last bucket possibly
smaller) and keeps only the first max_slides buckets, dropping the trailing
sections; when max_slides divides the section count this coincides with the
claimed ceil-sized grouping, and in particular 20 sections with
max_slides = 5 give exactly 5 buckets, bucket i led by section 4(i-1)+1 and
holding sections 4(i-1)+1 .. 4i. -/
theorem C4_amended_capping (secs : List Sect) (k : Nat) (hk : 0 < k)
    (hgt : secs.length > k) (hdvd : k ∣ secs.length) :
    capSections secs k = specCeilCap secs k ∧
    heuristic_outline c4TwentyText 5 = [
      { title := "T1", bullets := ["c1", "c2", "c3", "c4"] },
      { title := "T5", bullets := ["c5", "c6", "c7", "c8"] },
      { title := "T9", bullets := ["c9", "c10", "c11", "c12"] },
      { title := "T13", bullets := ["c13", "c14", "c15", "c16"] },
      { title := "T17", bullets := ["c17", "c18", "c19", "c20"] }] := by
  constructor
  · obtain ⟨q, hq⟩ := hdvd
    have hq1 : 1 ≤ q := by
      rcases Nat.eq_zero_or_pos q with h0 | h1
      · rw [h0, Nat.mul_zero] at hq
        omega
      · exact h1
    have hfloor : secs.length / k = q := by
      rw [hq]
      exact Nat.mul_div_cancel_left q hk
    have hceil : (secs.length + k - 1) / k = q := by
      have hrw : secs.length + k - 1 = k * q + (k - 1) := by omega
      rw [hrw, Nat.mul_add_div hk]
      have : (k - 1) / k = 0 := Nat.div_eq_of_lt (by omega)
      omega
    unfold capSections specCeilCap
    rw [hfloor, hceil, Nat.max_eq_right hq1]
  · rfl

/-- A six-section list used to instantiate the amended C4 theorem. -/
def c4WitnessSecs : List Sect :=
  [{ title := "s1", content := "a1" }, { title := "s2", content := "a2" },
   { title := "s3", content := "a3" }, { title := "s4", content := "a4" },
   { title := "s5", content := "a5" }, { title := "s6", content := "a6" }]

theorem C4_amended_capping_witness :
    capSections c4WitnessSecs 2 = specCeilCap c4WitnessSecs 2 ∧
    heuristic_outline c4TwentyText 5 = [
      { title := "T1", bullets := ["c1", "c2", "c3", "c4"] },
      { title := "T5", bullets := ["c5", "c6", "c7", "c8"] },
      { title := "T9", bullets := ["c9", "c10", "c11", "c12"] },
      { title := "T13", bullets := ["c13", "c14", "c15", "c16"] },
      { title := "T17", bullets := ["c17", "c18", "c19", "c20"] }] :=
  C4_amended_capping c4WitnessSecs 2 (by decide) (by decide) (by decide)

/-! ## slide_maker lemmas -/

/-- Reading a slide title back: the paragraphs of the placeholder with
placeholder-format index 0, as python-pptx exposes them to a reader of the
produced deck. -/
def slideTitleParas (s : PSlide) : Option (List String) :=
  (s.placeholders.find? (fun ph => ph.idx = 0)).map (fun ph => ph.paragraphs)

/-- Reading the body back: the paragraphs of the first non-title text-frame
placeholder of the slide. -/
def slideBodyParas (s : PSlide) : Option (List String) :=
  (findBody s).map (fun ph => ph.paragraphs)

/-- The two slides that one outline entry leaves in the deck when the chosen
title+content layout exposes no body placeholder: the content-layout slide
with the title set, and the title-only slide with the title set, carrying
the image and notes of the iteration. -/
def fallbackPair (layTC layTO : PLayout) (imgs : List ImgBytes)
    (notesFn : Option (OutlineEntry → String)) (p : Nat × OutlineEntry) : List PSlide :=
  [setSlideTitle (instantiateLayout layTC) p.2.title,
   attachNotes notesFn p.2 (attachImg imgs p.1
     (setSlideTitle (instantiateLayout layTO) p.2.title))]

/-- The single slide that one outline entry leaves in the deck when the
chosen title+content layout exposes a body placeholder. -/
def contentSlideOf (layTC : PLayout) (imgs : List ImgBytes)
    (notesFn : Option (OutlineEntry → String)) (p : Nat × OutlineEntry) : PSlide :=
  attachNotes notesFn p.2 (attachImg imgs p.1
    (applyBulletsSlide (setSlideTitle (instantiateLayout layTC) p.2.title) p.2.bullets))

theorem find?_map_of_pred_eq {α : Type} (p : α → Bool) (f : α → α)
    (hf : ∀ x, p (f x) = p x) (l : List α) :
    (l.map f).find? p = (l.find? p).map f := by
  induction l with
  | nil => rfl
  | cons x xs ih =>
      simp only [List.map_cons, List.find?_cons]
      rw [hf x]
      cases hp : p x
      · exact ih
      · rfl

theorem titleSet_preserves_isBodyPh (t : String) (ph : PPlaceholder) :
    isBodyPh (if ph.idx = 0 then { ph with paragraphs := [t] } else ph) = isBodyPh ph := by
  split <;> rfl

theorem titleSet_id_of_body (t : String) (ph : PPlaceholder) (h : isBodyPh ph = true) :
    (if ph.idx = 0 then { ph with paragraphs := [t] } else ph) = ph := by
  unfold isBodyPh at h
  rw [Bool.and_eq_true] at h
  split
  · rename_i h0
    simp [h0] at h
  · rfl

theorem findBody_setSlideTitle (s : PSlide) (t : String) :
    findBody (setSlideTitle s t) = findBody s := by
  unfold setSlideTitle
  split
  · unfold findBody
    simp only []
    rw [find?_map_of_pred_eq isBodyPh _ (titleSet_preserves_isBodyPh t)]
    cases hf : s.placeholders.find? isBodyPh with
    | none => rfl
    | some ph =>
        have hb : isBodyPh ph = true := List.find?_some hf
        simp [titleSet_id_of_body t ph hb]
  · rfl

theorem inst_preserves_isBodyPh (ph : PPlaceholder) :
    isBodyPh { ph with paragraphs := if ph.hasTextFrame then [""] else [] } = isBodyPh ph := rfl

theorem findBody_instantiate (lay : PLayout) :
    findBody (instantiateLayout lay) =
      (lay.placeholders.find? isBodyPh).map
        (fun ph => { ph with paragraphs := [""] }) := by
  unfold findBody instantiateLayout
  simp only []
  rw [find?_map_of_pred_eq isBodyPh _ inst_preserves_isBodyPh]
  cases hf : lay.placeholders.find? isBodyPh with
  | none => rfl
  | some ph =>
      have hb : isBodyPh ph = true := List.find?_some hf
      unfold isBodyPh at hb
      rw [Bool.and_eq_true] at hb
      simp [hb.1]

theorem findBody_instSlide (lay : PLayout) (t : String) :
    findBody (setSlideTitle (instantiateLayout lay) t) =
      (lay.placeholders.find? isBodyPh).map (fun ph => { ph with paragraphs := [""] }) := by
  rw [findBody_setSlideTitle, findBody_instantiate]

theorem attachImg_nil (i : Nat) (s : PSlide) : attachImg [] i s = s := rfl

theorem composeLoop_imgs_nil (layTC layTO : PLayout) (nfn : Option (OutlineEntry → String))
    (outline : List OutlineEntry) (i j : Nat) :
    composeLoop layTC layTO [] nfn outline i = composeLoop layTC layTO [] nfn outline j := by
  induction outline generalizing i j with
  | nil => rfl
  | cons e rest ih =>
      simp only [composeLoop, List.isEmpty_nil, if_true, attachImg_nil]
      cases hfb : findBody (setSlideTitle (instantiateLayout layTC) e.title) with
      | none => simp only [hfb]; rw [ih i j]
      | some ph => simp only [hfb]; rw [ih i j]

theorem composeLoop_idx_step (layTC layTO : PLayout) (imgs : List ImgBytes)
    (nfn : Option (OutlineEntry → String)) (rest : List OutlineEntry) (i : Nat) :
    composeLoop layTC layTO imgs nfn rest (if imgs.isEmpty then i else i + 1) =
      composeLoop layTC layTO imgs nfn rest (i + 1) := by
  cases imgs with
  | nil =>
      simp only [List.isEmpty_nil, if_true]
      exact composeLoop_imgs_nil layTC layTO nfn rest i (i + 1)
  | cons a l => simp

theorem composeLoop_no_body (layTC layTO : PLayout) (imgs : List ImgBytes)
    (nfn : Option (OutlineEntry → String)) (outline : List OutlineEntry) (i : Nat)
    (hnb : layTC.placeholders.find? isBodyPh = none) :
    composeLoop layTC layTO imgs nfn outline i =
      (List.enumFrom i outline).flatMap (fallbackPair layTC layTO imgs nfn) := by
  induction outline generalizing i with
  | nil => rfl
  | cons e rest ih =>
      have hfb : findBody (setSlideTitle (instantiateLayout layTC) e.title) = none := by
        rw [findBody_instSlide, hnb]
        rfl
      simp only [composeLoop, hfb, List.enumFrom, List.flatMap_cons]
      rw [composeLoop_idx_step, ih (i + 1)]
      rfl

theorem composeLoop_with_body (layTC layTO : PLayout) (imgs : List ImgBytes)
    (nfn : Option (OutlineEntry → String)) (outline : List OutlineEntry) (i : Nat)
    (hb : (layTC.placeholders.find? isBodyPh).isSome = true) :
    composeLoop layTC layTO imgs nfn outline i =
      (List.enumFrom i outline).map (contentSlideOf layTC imgs nfn) := by
  induction outline generalizing i with
  | nil => rfl
  | cons e rest ih =>
      obtain ⟨ph, hph⟩ := Option.isSome_iff_exists.mp hb
      have hfb : findBody (setSlideTitle (instantiateLayout layTC) e.title) =
          some { ph with paragraphs := [""] } := by
        rw [findBody_instSlide, hph]
        rfl
      simp only [composeLoop, hfb, List.enumFrom, List.map_cons]
      rw [composeLoop_idx_step, ih (i + 1)]
      rfl

theorem titleSet_preserves_idx0 (t : String) (ph : PPlaceholder) :
    decide ((if ph.idx = 0 then { ph with paragraphs := [t] } else ph).idx = 0) =
      decide (ph.idx = 0) := by
  split <;> rfl

theorem slideTitleParas_instSlide (lay : PLayout) (t : String)
    (h : ∃ ph ∈ lay.placeholders, ph.idx = 0) :
    slideTitleParas (setSlideTitle (instantiateLayout lay) t) = some [t] := by
  unfold slideTitleParas setSlideTitle
  have hany : ((instantiateLayout lay).placeholders.any (fun ph => ph.idx = 0)) = true := by
    rw [List.any_eq_true]
    obtain ⟨ph, hmem, h0⟩ := h
    refine ⟨{ ph with paragraphs := if ph.hasTextFrame then [""] else [] }, ?_, by simpa using h0⟩
    unfold instantiateLayout
    exact List.mem_map_of_mem _ hmem
  rw [if_pos hany]
  simp only []
  rw [find?_map_of_pred_eq (fun ph => decide (ph.idx = 0)) _ (fun x => titleSet_preserves_idx0 t x)]
  have hsome : ((instantiateLayout lay).placeholders.find? (fun ph => ph.idx = 0)).isSome = true := by
    rw [List.find?_isSome]
    rw [List.any_eq_true] at hany
    obtain ⟨x, hx, hpx⟩ := hany
    exact ⟨x, hx, hpx⟩
  obtain ⟨ph0, hph0⟩ := Option.isSome_iff_exists.mp hsome
  have h0 : ph0.idx = 0 := by
    have := List.find?_some hph0
    simpa using this
  rw [hph0]
  simp [h0]

theorem slideTitleParas_attachImg (imgs : List ImgBytes) (i : Nat) (s : PSlide) :
    slideTitleParas (attachImg imgs i s) = slideTitleParas s := by
  unfold attachImg
  split <;> rfl

theorem slideTitleParas_attachNotes (nfn : Option (OutlineEntry → String))
    (e : OutlineEntry) (s : PSlide) :
    slideTitleParas (attachNotes nfn e s) = slideTitleParas s := by
  unfold attachNotes
  cases nfn <;> rfl

theorem layoutName_setSlideTitle (s : PSlide) (t : String) :
    (setSlideTitle s t).layoutName = s.layoutName := by
  unfold setSlideTitle
  split <;> rfl

theorem layoutName_attachImg (imgs : List ImgBytes) (i : Nat) (s : PSlide) :
    (attachImg imgs i s).layoutName = s.layoutName := by
  unfold attachImg
  split <;> rfl

theorem layoutName_attachNotes (nfn : Option (OutlineEntry → String))
    (e : OutlineEntry) (s : PSlide) :
    (attachNotes nfn e s).layoutName = s.layoutName := by
  unfold attachNotes
  cases nfn <;> rfl

theorem fallbackPair_length (layTC layTO : PLayout) (imgs : List ImgBytes)
    (nfn : Option (OutlineEntry → String)) (outline : List OutlineEntry) (i : Nat) :
    ((List.enumFrom i outline).flatMap (fallbackPair layTC layTO imgs nfn)).length =
      2 * outline.length := by
  induction outline generalizing i with
  | nil => rfl
  | cons e rest ih =>
      simp only [List.enumFrom, List.flatMap_cons, List.length_append, ih (i + 1)]
      have h2 : (fallbackPair layTC layTO imgs nfn (i, e)).length = 2 := rfl
      rw [h2]
      simp only [List.length_cons]
      omega

/-- The template of the C5 counterexample: a deck whose title+content layout
exposes only the title placeholder. -/
def c5Tpl : Template :=
  ⟨⟨[⟨"Title Slide", [⟨0, true, [""]⟩, ⟨1, true, [""]⟩]⟩,
     ⟨"Title and Content", [⟨0, true, [""]⟩]⟩,
     ⟨"Title Only", [⟨0, true, [""]⟩]⟩], []⟩, []⟩

def c5Outline : List OutlineEntry := [{ title := "Intro", bullets := ["a"] }]

/-- C5 counterexample: on a template whose content layout has no non-title
placeholder, one outline entry leaves TWO slides after the cover — the
content-layout slide is added to the deck before the title-only fallback and
is never discarded — refuting "exactly one title-only slide per outline
entry". -/
theorem C5_counterexample :
    (build_presentation c5Tpl c5Outline none [] none).map
        (fun d => (d.slides.drop 1).length) = some 2 ∧
    ¬ ((build_presentation c5Tpl c5Outline none [] none).map
        (fun d => (d.slides.drop 1).length) = some c5Outline.length) := by
  constructor
  · rfl
  · intro h
    rw [show (build_presentation c5Tpl c5Outline none [] none).map
        (fun d => (d.slides.drop 1).length) = some 2 from rfl] at h
    simp [c5Outline] at h

/-- C5 amended: when the chosen title+content layout has no non-title
text-frame placeholder, the composer adds a title-only slide in addition to
— not instead of — the content-layout slide, which stays in the deck; after
the cover each outline entry thus contributes exactly two slides, the
content-layout slide with the title set and no bullets, then the title-only
slide with the title set and no bullets injected (the latter carrying the
image and notes of the iteration); titles are preserved on both. -/
theorem C5_amended (tpl : Template) (outline : List OutlineEntry) (g : Option String)
    (imgs : List ImgBytes) (nfn : Option (OutlineEntry → String))
    (l0 : PLayout) (ls : List PLayout) (hl : tpl.prs.layouts = l0 :: ls)
    (hnb : (titleContentLayout (l0 :: ls) l0).placeholders.find? isBodyPh = none)
    (hTC0 : ∃ ph ∈ (titleContentLayout (l0 :: ls) l0).placeholders, ph.idx = 0)
    (hTO0 : ∃ ph ∈ (titleOnlyLayout (l0 :: ls) l0).placeholders, ph.idx = 0) :
    build_presentation tpl outline g imgs nfn =
      some { tpl.prs with slides :=
        (tpl.prs.slides ++ mkCoverSlide l0 (firstTitleOf outline) (subtitleOf g) ::
          (List.enumFrom 0 outline).flatMap
            (fallbackPair (titleContentLayout (l0 :: ls) l0)
              (titleOnlyLayout (l0 :: ls) l0) imgs nfn)) } ∧
    ((List.enumFrom 0 outline).flatMap
        (fallbackPair (titleContentLayout (l0 :: ls) l0)
          (titleOnlyLayout (l0 :: ls) l0) imgs nfn)).length = 2 * outline.length ∧
    (∀ p ∈ List.enumFrom 0 outline,
      (fallbackPair (titleContentLayout (l0 :: ls) l0)
          (titleOnlyLayout (l0 :: ls) l0) imgs nfn p).map PSlide.layoutName =
        [(titleContentLayout (l0 :: ls) l0).name, (titleOnlyLayout (l0 :: ls) l0).name] ∧
      (fallbackPair (titleContentLayout (l0 :: ls) l0)
          (titleOnlyLayout (l0 :: ls) l0) imgs nfn p).map slideTitleParas =
        [some [p.2.title], some [p.2.title]]) := by
  refine ⟨?_, fallbackPair_length _ _ _ _ outline 0, ?_⟩
  · simp only [build_presentation, hl]
    rw [composeLoop_no_body _ _ _ _ outline 0 hnb]
  · intro p hp
    constructor
    · unfold fallbackPair
      simp only [List.map_cons, List.map_nil]
      rw [layoutName_attachNotes, layoutName_attachImg, layoutName_setSlideTitle,
        layoutName_setSlideTitle]
      rfl
    · unfold fallbackPair
      simp only [List.map_cons, List.map_nil]
      rw [slideTitleParas_attachNotes, slideTitleParas_attachImg,
        slideTitleParas_instSlide _ _ hTC0, slideTitleParas_instSlide _ _ hTO0]

theorem C5_amended_witness :
    build_presentation c5Tpl c5Outline none [] none =
      some { c5Tpl.prs with slides :=
        (c5Tpl.prs.slides ++ mkCoverSlide (c5Tpl.prs.layouts.headD default)
            (firstTitleOf c5Outline) (subtitleOf none) ::
          (List.enumFrom 0 c5Outline).flatMap
            (fallbackPair (titleContentLayout c5Tpl.prs.layouts (c5Tpl.prs.layouts.headD default))
              (titleOnlyLayout c5Tpl.prs.layouts (c5Tpl.prs.layouts.headD default)) [] none)) } := by
  have h := C5_amended c5Tpl c5Outline none [] none
    (c5Tpl.prs.layouts.headD default) (c5Tpl.prs.layouts.tail) rfl rfl
    (by refine ⟨⟨0, true, [""]⟩, ?_, rfl⟩; decide)
    (by refine ⟨⟨0, true, [""]⟩, ?_, rfl⟩; decide)
  exact h.1

theorem isBodyPh_update_paragraphs (ph : PPlaceholder) (ps : List String) :
    isBodyPh { ph with paragraphs := ps } = isBodyPh ph := rfl

theorem find?_body_setBodyBullets (phs : List PPlaceholder) (bullets : List String) :
    (setBodyBullets phs bullets).find? isBodyPh =
      (phs.find? isBodyPh).map
        (fun ph => { ph with paragraphs := applyBullets ph.paragraphs bullets }) := by
  induction phs with
  | nil => rfl
  | cons ph rest ih =>
      simp only [setBodyBullets]
      cases hb : isBodyPh ph with
      | true =>
          rw [if_pos rfl]
          simp only [List.find?_cons]
          rw [show isBodyPh { ph with paragraphs := applyBullets ph.paragraphs bullets } = true from
            (isBodyPh_update_paragraphs ph _).trans hb]
          rw [hb]
          rfl
      | false =>
          rw [if_neg (by simp)]
          simp only [List.find?_cons, hb]
          exact ih

theorem find?_idx0_setBodyBullets (phs : List PPlaceholder) (bullets : List String) :
    (setBodyBullets phs bullets).find? (fun ph => ph.idx = 0) =
      phs.find? (fun ph => ph.idx = 0) := by
  induction phs with
  | nil => rfl
  | cons ph rest ih =>
      simp only [setBodyBullets]
      cases hb : isBodyPh ph with
      | true =>
          rw [if_pos rfl]
          have hidx : ¬ ph.idx = 0 := by
            unfold isBodyPh at hb
            rw [Bool.and_eq_true] at hb
            simpa using hb.2
          simp only [List.find?_cons]
          simp [hidx]
      | false =>
          rw [if_neg (by simp)]
          simp only [List.find?_cons]
          cases hp : (decide (ph.idx = 0)) with
          | true => rfl
          | false => exact ih

theorem slideTitleParas_applyBulletsSlide (s : PSlide) (bullets : List String) :
    slideTitleParas (applyBulletsSlide s bullets) = slideTitleParas s := by
  unfold slideTitleParas applyBulletsSlide
  rw [find?_idx0_setBodyBullets]

theorem slideBodyParas_applyBulletsSlide (s : PSlide) (bullets : List String) :
    slideBodyParas (applyBulletsSlide s bullets) =
      (findBody s).map (fun ph => applyBullets ph.paragraphs bullets) := by
  unfold slideBodyParas applyBulletsSlide findBody
  rw [find?_body_setBodyBullets]
  cases (s.placeholders.find? isBodyPh) <;> rfl

theorem slideBodyParas_attachImg (imgs : List ImgBytes) (i : Nat) (s : PSlide) :
    slideBodyParas (attachImg imgs i s) = slideBodyParas s := by
  unfold slideBodyParas findBody attachImg
  split <;> rfl

theorem slideBodyParas_attachNotes (nfn : Option (OutlineEntry → String))
    (e : OutlineEntry) (s : PSlide) :
    slideBodyParas (attachNotes nfn e s) = slideBodyParas s := by
  unfold slideBodyParas findBody attachNotes
  cases nfn <;> rfl

/-- C6: round-trip — composing a deck from the one-entry outline
[{title: "Intro", bullets: ["a", "b"]}] over any template whose chosen
title+content layout has a title placeholder and a non-title text-frame
placeholder, then reading the first content slide back, yields the title
"Intro" and exactly the two body paragraphs "a" and "b" in order. -/
theorem C6_roundtrip (tpl : Template) (g : Option String) (imgs : List ImgBytes)
    (nfn : Option (OutlineEntry → String)) (l0 : PLayout) (ls : List PLayout)
    (hl : tpl.prs.layouts = l0 :: ls) (hs : tpl.prs.slides = [])
    (hT : ∃ ph ∈ (titleContentLayout (l0 :: ls) l0).placeholders, ph.idx = 0)
    (hB : ((titleContentLayout (l0 :: ls) l0).placeholders.find? isBodyPh).isSome = true) :
    ∃ deck,
      build_presentation tpl [{ title := "Intro", bullets := ["a", "b"] }] g imgs nfn =
        some deck ∧
      deck.slides.length = 2 ∧
      slideTitleParas (deck.slides.getD 1 default) = some ["Intro"] ∧
      slideBodyParas (deck.slides.getD 1 default) = some ["a", "b"] := by
  refine ⟨{ tpl.prs with slides :=
      (tpl.prs.slides ++
        mkCoverSlide l0 (firstTitleOf [{ title := "Intro", bullets := ["a", "b"] }])
          (subtitleOf g) ::
        (List.enumFrom 0 [({ title := "Intro", bullets := ["a", "b"] } : OutlineEntry)]).map
          (contentSlideOf (titleContentLayout (l0 :: ls) l0) imgs nfn)) }, ?_, ?_, ?_, ?_⟩
  · simp only [build_presentation, hl]
    rw [composeLoop_with_body (titleContentLayout (l0 :: ls) l0)
      (titleOnlyLayout (l0 :: ls) l0) imgs nfn _ 0 hB]
  · simp [hs]
  · simp only [hs, List.enumFrom, List.map_cons, List.map_nil, List.nil_append,
      List.getD_cons_succ, List.getD_cons_zero, contentSlideOf]
    rw [slideTitleParas_attachNotes, slideTitleParas_attachImg,
      slideTitleParas_applyBulletsSlide, slideTitleParas_instSlide _ _ hT]
  · simp only [hs, List.enumFrom, List.map_cons, List.map_nil, List.nil_append,
      List.getD_cons_succ, List.getD_cons_zero, contentSlideOf]
    rw [slideBodyParas_attachNotes, slideBodyParas_attachImg, slideBodyParas_applyBulletsSlide]
    obtain ⟨ph, hph⟩ := Option.isSome_iff_exists.mp hB
    rw [findBody_instSlide, hph]
    rfl

/-- A regular template: its title+content layout has a title placeholder and
a body placeholder. -/
def c6Tpl : Template :=
  ⟨⟨[⟨"Title Slide", [⟨0, true, [""]⟩, ⟨1, true, [""]⟩]⟩,
     ⟨"Title and Content", [⟨0, true, [""]⟩, ⟨1, true, [""]⟩]⟩,
     ⟨"Title Only", [⟨0, true, [""]⟩]⟩], []⟩, []⟩

theorem C6_roundtrip_witness :
    ∃ deck,
      build_presentation c6Tpl [{ title := "Intro", bullets := ["a", "b"] }] none [] none =
        some deck ∧
      deck.slides.length = 2 ∧
      slideTitleParas (deck.slides.getD 1 default) = some ["Intro"] ∧
      slideBodyParas (deck.slides.getD 1 default) = some ["a", "b"] :=
  C6_roundtrip c6Tpl none [] none ⟨"Title Slide", [⟨0, true, [""]⟩, ⟨1, true, [""]⟩]⟩
    [⟨"Title and Content", [⟨0, true, [""]⟩, ⟨1, true, [""]⟩]⟩,
     ⟨"Title Only", [⟨0, true, [""]⟩]⟩] rfl rfl
    ⟨⟨0, true, [""]⟩, by decide, rfl⟩ (by decide)

theorem images_setSlideTitle (s : PSlide) (t : String) :
    (setSlideTitle s t).images = s.images := by
  unfold setSlideTitle
  split <;> rfl

theorem images_attachNotes (nfn : Option (OutlineEntry → String)) (e : OutlineEntry)
    (s : PSlide) : (attachNotes nfn e s).images = s.images := by
  unfold attachNotes
  cases nfn <;> rfl

theorem images_attachImg_ne (imgs : List ImgBytes) (i : Nat) (s : PSlide)
    (h : imgs ≠ []) :
    (attachImg imgs i s).images = s.images ++ [imgs.getD (i % imgs.length) []] := by
  unfold attachImg
  rw [if_neg (by simpa using h)]

theorem images_mkCoverSlide (l0 : PLayout) (t : String) (st : Option String) :
    (mkCoverSlide l0 t st).images = [] := by
  unfold mkCoverSlide
  simp only []
  rw [images_setSlideTitle]
  rfl

theorem composeLoop_nil_images (layTC layTO : PLayout) (nfn : Option (OutlineEntry → String))
    (outline : List OutlineEntry) (i : Nat) :
    ∀ s ∈ composeLoop layTC layTO [] nfn outline i, s.images = [] := by
  induction outline generalizing i with
  | nil => intro s hsm; simp [composeLoop] at hsm
  | cons e rest ih =>
      intro s hsm
      simp only [composeLoop, List.isEmpty_nil, if_true, attachImg_nil] at hsm
      cases hfb : findBody (setSlideTitle (instantiateLayout layTC) e.title) with
      | none =>
          rw [hfb] at hsm
          rcases List.mem_cons.mp hsm with rfl | hsm
          · rw [images_setSlideTitle]; rfl
          rcases List.mem_cons.mp hsm with rfl | hsm
          · rw [images_attachNotes, images_setSlideTitle]; rfl
          · exact ih i s hsm
      | some ph =>
          rw [hfb] at hsm
          rcases List.mem_cons.mp hsm with rfl | hsm
          · rw [images_attachNotes]
            rw [show (applyBulletsSlide (setSlideTitle (instantiateLayout layTC) e.title)
                e.bullets).images =
              (setSlideTitle (instantiateLayout layTC) e.title).images from rfl]
            rw [images_setSlideTitle]
            rfl
          · exact ih i s hsm

theorem images_contentSlideOf (layTC : PLayout) (imgs : List ImgBytes)
    (nfn : Option (OutlineEntry → String)) (i : Nat) (e : OutlineEntry) (h : imgs ≠ []) :
    (contentSlideOf layTC imgs nfn (i, e)).images =
      [imgs.getD (i % imgs.length) []] := by
  unfold contentSlideOf
  rw [images_attachNotes, images_attachImg_ne _ _ _ h]
  rw [show (applyBulletsSlide (setSlideTitle (instantiateLayout layTC) e.title)
      e.bullets).images = (setSlideTitle (instantiateLayout layTC) e.title).images from rfl]
  rw [images_setSlideTitle]
  rfl

/-- C9: when the template holds no eligible embedded image the composer
attaches no image anywhere and still builds the deck; when the shuffled
collection holds n ≥ 1 images, each generated content slide carries exactly
one image, namely entry number i mod n of the shuffled collection for the
i-th outline entry. -/
theorem C9_image_cycling (tpl : Template) (outline : List OutlineEntry) (g : Option String)
    (nfn : Option (OutlineEntry → String)) (shuffledImgs : List ImgBytes)
    (l0 : PLayout) (ls : List PLayout) (hl : tpl.prs.layouts = l0 :: ls)
    (hs : tpl.prs.slides = [])
    (hperm : shuffledImgs.Perm (collectTemplateImages tpl.entries)) :
    (collectTemplateImages tpl.entries = [] →
      ∃ deck, build_presentation tpl outline g shuffledImgs nfn = some deck ∧
        ∀ s ∈ deck.slides, s.images = []) ∧
    (shuffledImgs ≠ [] →
      ((titleContentLayout (l0 :: ls) l0).placeholders.find? isBodyPh).isSome = true →
      ∃ deck, build_presentation tpl outline g shuffledImgs nfn = some deck ∧
        (deck.slides.drop 1).length = outline.length ∧
        ∀ i, i < outline.length →
          ((deck.slides.drop 1).getD i default).images =
            [shuffledImgs.getD (i % shuffledImgs.length) []]) := by
  constructor
  · intro hcol
    rw [hcol] at hperm
    have hnil : shuffledImgs = [] := hperm.eq_nil
    subst hnil
    refine ⟨{ tpl.prs with slides :=
        (tpl.prs.slides ++ mkCoverSlide l0 (firstTitleOf outline) (subtitleOf g) ::
          composeLoop (titleContentLayout (l0 :: ls) l0) (titleOnlyLayout (l0 :: ls) l0)
            [] nfn outline 0) }, ?_, ?_⟩
    · simp only [build_presentation, hl]
    · intro s hsm
      simp only [hs, List.nil_append, List.mem_cons] at hsm
      rcases hsm with rfl | hsm
      · exact images_mkCoverSlide l0 _ _
      · exact composeLoop_nil_images _ _ nfn outline 0 s hsm
  · intro hne hB
    refine ⟨{ tpl.prs with slides :=
        (tpl.prs.slides ++ mkCoverSlide l0 (firstTitleOf outline) (subtitleOf g) ::
          (List.enumFrom 0 outline).map
            (contentSlideOf (titleContentLayout (l0 :: ls) l0) shuffledImgs nfn)) },
      ?_, ?_, ?_⟩
    · simp only [build_presentation, hl]
      rw [composeLoop_with_body (titleContentLayout (l0 :: ls) l0)
        (titleOnlyLayout (l0 :: ls) l0) shuffledImgs nfn outline 0 hB]
    · simp [hs, List.enumFrom_length]
    · intro i hi
      simp only [hs, List.nil_append, List.drop_succ_cons, List.drop_zero]
      have hlen : i < ((List.enumFrom 0 outline).map
          (contentSlideOf (titleContentLayout (l0 :: ls) l0) shuffledImgs nfn)).length := by
        simpa [List.enumFrom_length] using hi
      rw [List.getD_eq_getElem _ _ hlen, List.getElem_map, List.getElem_enumFrom]
      simpa using images_contentSlideOf (titleContentLayout (l0 :: ls) l0) shuffledImgs nfn
        i (outline.get ⟨i, hi⟩) hne

def c9TplNoImgs : Template :=
  ⟨⟨[⟨"Title Slide", [⟨0, true, [""]⟩]⟩,
     ⟨"Title and Content", [⟨0, true, [""]⟩, ⟨1, true, [""]⟩]⟩], []⟩,
   [⟨"docProps/thumbnail.jpeg", [9]⟩, ⟨"ppt/media/readme.txt", [3]⟩]⟩

def c9TplOneImg : Template :=
  ⟨⟨[⟨"Title Slide", [⟨0, true, [""]⟩]⟩,
     ⟨"Title and Content", [⟨0, true, [""]⟩, ⟨1, true, [""]⟩]⟩], []⟩,
   [⟨"ppt/media/image1.png", [1, 2]⟩]⟩

def c9Outline : List OutlineEntry :=
  [⟨"A", ["x"]⟩, ⟨"B", []⟩, ⟨"C", ["y", "z"]⟩]

theorem C9_image_cycling_witness :
    (∃ deck, build_presentation c9TplNoImgs c9Outline none [] none = some deck ∧
      ∀ s ∈ deck.slides, s.images = []) ∧
    (∃ deck, build_presentation c9TplOneImg c9Outline none [[1, 2]] none = some deck ∧
      (deck.slides.drop 1).length = c9Outline.length ∧
      ∀ i, i < c9Outline.length →
        ((deck.slides.drop 1).getD i default).images =
          [[[1, 2]].getD (i % [[1, 2]].length) []]) := by
  constructor
  · exact (C9_image_cycling c9TplNoImgs c9Outline none none []
      ⟨"Title Slide", [⟨0, true, [""]⟩]⟩
      [⟨"Title and Content", [⟨0, true, [""]⟩, ⟨1, true, [""]⟩]⟩] rfl rfl
      (by rw [show collectTemplateImages c9TplNoImgs.entries = [] from rfl]) ).1 rfl
  · exact (C9_image_cycling c9TplOneImg c9Outline none none [[1, 2]]
      ⟨"Title Slide", [⟨0, true, [""]⟩]⟩
      [⟨"Title and Content", [⟨0, true, [""]⟩, ⟨1, true, [""]⟩]⟩] rfl rfl
      (by rw [show collectTemplateImages c9TplOneImg.entries = [[1, 2]] from rfl]) ).2
      (by decide) (by decide)

/-- The model response of the C7 example: prose followed by the JSON array. -/
def c7Resp : String := "Here you go:\n[\x7b\"title\":\"A\",\"bullets\":[\"x\"]\x7d]"

/-- The parsed outline of the C7 example: one entry titled "A". -/
def c7Json : Json :=
  Json.jarr [Json.jobj [("title", Json.jstr "A"), ("bullets", Json.jarr [Json.jstr "x"])]]

/-- C7: response parsing first attempts the direct parse; on failure it
parses the bracketed substring; when both fail the error propagates (the
`none` of the model); the example response with a prose prefix parses to the
one-entry outline titled "A". -/
theorem C7_parse_pipeline :
    (∀ s v, jsonLoads s = some v → safeParseJson s = some v) ∧
    (∀ s, jsonLoads s = none → safeParseJson s = (bracketSub s).bind jsonLoads) ∧
    jsonLoads c7Resp = none ∧
    bracketSub c7Resp = some "[\x7b\"title\":\"A\",\"bullets\":[\"x\"]\x7d]" ∧
    safeParseJson c7Resp = some c7Json := by
  refine ⟨?_, ?_, rfl, rfl, rfl⟩
  · intro s v h
    unfold safeParseJson
    rw [h]
  · intro s h
    unfold safeParseJson
    rw [h]
    cases bracketSub s <;> rfl

theorem C7_parse_pipeline_witness :
    safeParseJson "[]" = some (Json.jarr []) ∧
    safeParseJson "noise [1] tail" = (bracketSub "noise [1] tail").bind jsonLoads :=
  ⟨C7_parse_pipeline.1 "[]" (Json.jarr []) rfl,
   C7_parse_pipeline.2.1 "noise [1] tail" rfl⟩

/-- C8: an unrecognized provider name produces the provider error with no
network call (empty call log); a recognized name results in exactly one call
to the dispatched provider; and non-dispatch means exactly that none of the
four lower-cased keywords occurs in the lower-cased configured name. -/
theorem C8_provider_dispatch (cfg : ProviderConfig) (text : String) (g : Option String)
    (k : Nat) (respond : Provider → String → String) :
    (dispatchProvider cfg.name = none →
      make_outline_with_llm text g cfg k respond = (Except.error LlmError.providerErr, [])) ∧
    (∀ p, dispatchProvider cfg.name = some p →
      (make_outline_with_llm text g cfg k respond).2 = [p]) ∧
    (dispatchProvider cfg.name = none ↔
      strIn "openai" (pyLower cfg.name) = false ∧
      strIn "anthropic" (pyLower cfg.name) = false ∧
      strIn "gemini" (pyLower cfg.name) = false ∧
      strIn "google" (pyLower cfg.name) = false) := by
  refine ⟨?_, ?_, ?_⟩
  · intro h
    unfold make_outline_with_llm
    rw [h]
  · intro p h
    unfold make_outline_with_llm
    rw [h]
    cases hsp : safeParseJson (respond p (promptOutline text g k)) <;> simp only [hsp]
  · simp only [dispatchProvider]
    split_ifs with h1 h2 h3
    · simp_all
    · simp_all
    · rw [Bool.or_eq_true] at h3
      constructor
      · intro hc; exact absurd hc (by simp)
      · intro hc
        rcases h3 with h3 | h3
        · rw [hc.2.2.1] at h3; exact absurd h3 (by simp)
        · rw [hc.2.2.2] at h3; exact absurd h3 (by simp)
    · rw [Bool.or_eq_true] at h3
      push_neg at h3
      constructor
      · intro _
        refine ⟨by simpa using h1, by simpa using h2, ?_, ?_⟩
        · simpa using h3.1
        · simpa using h3.2
      · intro _; rfl

theorem C8_provider_dispatch_witness :
    make_outline_with_llm "t" none ⟨"mistral-large", "k", none⟩ 12 (fun _ _ => "[]") =
      (Except.error LlmError.providerErr, []) ∧
    (make_outline_with_llm "t" none ⟨"OpenAI", "k", none⟩ 12 (fun _ _ => "[]")).2 =
      [Provider.openai] :=
  ⟨(C8_provider_dispatch ⟨"mistral-large", "k", none⟩ "t" none 12 (fun _ _ => "[]")).1 rfl,
   (C8_provider_dispatch ⟨"OpenAI", "k", none⟩ "t" none 12 (fun _ _ => "[]")).2.1
     Provider.openai rfl⟩

/-- Whether every member of a JSON array is a string. -/
def isStrArr : List Json → Bool
  | [] => true
  | Json.jstr _ :: rest => isStrArr rest
  | _ => false

/-- Modelled from the spec: one entry of the expected response shape, an
object with a string title and a string-array bullets field.  Used only to
state that the adapter returns values that do not have this shape. -/
def entryShaped : Json → Bool
  | Json.jobj [("title", Json.jstr _), ("bullets", Json.jarr bs)] => isStrArr bs
  | _ => false

/-- Modelled from the spec: the expected response shape, a JSON array of
{title, bullets} objects. -/
def outlineShaped : Json → Bool
  | Json.jarr xs => xs.all entryShaped
  | _ => false

/-- C10: the adapter performs no shape validation — a JSON array of bare
strings and a JSON object both come back unchanged as successful results,
though neither is an array of {title, bullets} objects. -/
theorem C10_no_shape_validation :
    make_outline_with_llm "txt" none ⟨"openai", "key", none⟩ 12 (fun _ _ => "[\"x\",\"y\"]") =
      (Except.ok (Json.jarr [Json.jstr "x", Json.jstr "y"]), [Provider.openai]) ∧
    make_outline_with_llm "txt" none ⟨"Anthropic", "key", none⟩ 12
        (fun _ _ => "\x7b\"a\": 1\x7d") =
      (Except.ok (Json.jobj [("a", Json.jnum 1)]), [Provider.anthropic]) ∧
    outlineShaped (Json.jarr [Json.jstr "x", Json.jstr "y"]) = false ∧
    outlineShaped (Json.jobj [("a", Json.jnum 1)]) = false :=
  ⟨rfl, rfl, rfl, rfl⟩
